import Mathlib

/-!
Shallow embedding of the query layer of `pkg info` (src/unnamed/part_001,
function `exec_info`): the inline version-constraint parser, the
three-way-comparison constraint evaluator, the per-specifier candidate
iteration with its `gotone` flag, the status threading across specifiers,
and the option/compatibility policy block.

The database (`pkgdb_query` / `pkgdb_it_next`) and the version comparison
(`pkg_version_cmp`) are external collaborators (their code is not part of
the core under study); they are passed in as parameters: a query function
returning an optional candidate stream (`none` models `pkgdb_query`
returning `NULL`), a `clean` flag modelling whether the iterator ended with
`EPKG_END`, and an `Int`-valued comparison function.
-/

namespace PkgInfo

/-- Exit code `EX_OK` from sysexits.h. -/
def EX_OK : Nat := 0

/-- Exit code `EX_SOFTWARE` from sysexits.h. -/
def EX_SOFTWARE : Nat := 70

/-- Exit code `EX_IOERR` from sysexits.h. -/
def EX_IOERR : Nat := 74

/-- The `enum sign` of the source: comparison operators for version
constraints.  In the C code `sign` and `sign2` are `int`s initialised to
`0`, which is the value of `LT`. -/
inductive Sign where
  | LT
  | LE
  | GT
  | GE
  | EQ
deriving DecidableEq

/-- The enumeration mode (`match_t`) selecting how the pattern is matched
against the database. -/
inductive MatchT where
  | MATCH_ALL
  | MATCH_EXACT
  | MATCH_GLOB
  | MATCH_REGEX
deriving DecidableEq

/-- The `INFO_*` query-option bit-set (`uint64_t opt`), modelled from the
spec as a set of requested information categories, one boolean per bit.
The name-version tag bit `INFO_TAG_NAMEVER` is set in every value `opt`
ever takes in `exec_info`, so it is left implicit; the all-fields-false
value models `opt == INFO_TAG_NAMEVER`, and `opt & INFO_ALL == 0` is
modelled as "no category field is set". -/
structure QueryOpt where
  annot : Bool := false
  message : Bool := false
  deps : Bool := false
  comment : Bool := false
  rdeps : Bool := false
  locked : Bool := false
  files : Bool := false
  shlibsProvided : Bool := false
  shlibsRequired : Bool := false
  flatsize : Bool := false
  origin : Bool := false
  pfx : Bool := false
  full : Bool := false
  raw : Bool := false
deriving DecidableEq

/-- `opt & INFO_ALL != 0`: some information category beyond the
name-version tag has been requested. -/
def hasCategory (o : QueryOpt) : Bool :=
  o.annot || o.message || o.deps || o.comment || o.rdeps || o.locked ||
  o.files || o.shlibsProvided || o.shlibsRequired || o.flatsize ||
  o.origin || o.pfx || o.full || o.raw

/-- The NUL character written into the argument buffer by the in-place
parser. -/
def nulC : Char := Char.ofNat 0

/-- The value of a C string starting at offset `p` of buffer `buf`:
characters up to the first NUL. -/
def cstring (buf : List Char) (p : Nat) : List Char :=
  (buf.drop p).takeWhile (fun c => c != nulC)

/-- A value of `pkgversion` / `pkgversion2` during the scan of one token:
either a pointer into the current token's buffer (`here`), or a string
left over from a previous specifier's buffer (`stale`) — the C code never
resets these pointers between specifiers. -/
inductive PvRef where
  | stale (s : List Char)
  | here (p : Nat)
deriving DecidableEq

/-- Resolve a version pointer to its string value against the final
(mutated) buffer of the current token. -/
def resolvePv (buf : List Char) : PvRef → List Char
  | PvRef.stale s => s
  | PvRef.here p => cstring buf p

/-- The operator-scanning loop of `exec_info` (source lines 249-321):
walk index `j` over the token, split at `<`, `>`, `=`, recording the
operator and NUL-terminating the previous segment in place.  A directly
following `=` upgrades the operator and is skipped (`j++`).  Note the
faithful reproduction of the source's assignments: in the branches taken
when `pkgversion` is already set, the `=`-upgrade writes to `sign`
(constraint 1), not `sign2`.  `fuel` only bounds the recursion: `j`
strictly increases and the loop stops once `j` is past the end of the
buffer, so `buf.length + 2` steps are never exhausted. -/
def scan : Nat → List Char → Option PvRef → Option PvRef → Sign → Sign → Nat →
    List Char × Option PvRef × Option PvRef × Sign × Sign
  | 0, buf, pv, pv2, sg, sg2, _ => (buf, pv, pv2, sg, sg2)
  | Nat.succ f, buf, pv, pv2, sg, sg2, j =>
    match buf.get? j with
    | none => (buf, pv, pv2, sg, sg2)
    | some c =>
      if c = nulC then (buf, pv, pv2, sg, sg2)
      else if c = '<' then
        let buf1 := buf.set j nulC
        match pv with
        | none =>
          if buf1.get? (j+1) = some '=' then
            scan f buf1 (some (PvRef.here (j+2))) pv2 Sign.LE sg2 (j+2)
          else
            scan f buf1 (some (PvRef.here (j+1))) pv2 Sign.LT sg2 (j+1)
        | some _ =>
          if buf1.get? (j+1) = some '=' then
            scan f buf1 pv (some (PvRef.here (j+2))) Sign.LE Sign.LT (j+2)
          else
            scan f buf1 pv (some (PvRef.here (j+1))) sg Sign.LT (j+1)
      else if c = '>' then
        let buf1 := buf.set j nulC
        match pv with
        | none =>
          if buf1.get? (j+1) = some '=' then
            scan f buf1 (some (PvRef.here (j+2))) pv2 Sign.GE sg2 (j+2)
          else
            scan f buf1 (some (PvRef.here (j+1))) pv2 Sign.GT sg2 (j+1)
        | some _ =>
          if buf1.get? (j+1) = some '=' then
            scan f buf1 pv (some (PvRef.here (j+2))) Sign.GE Sign.GT (j+2)
          else
            scan f buf1 pv (some (PvRef.here (j+1))) sg Sign.GT (j+1)
      else if c = '=' then
        let buf1 := buf.set j nulC
        match pv with
        | none =>
          if buf1.get? (j+1) = some '=' then
            scan f buf1 (some (PvRef.here (j+2))) pv2 Sign.EQ sg2 (j+2)
          else
            scan f buf1 (some (PvRef.here (j+1))) pv2 Sign.EQ sg2 (j+1)
        | some _ =>
          if buf1.get? (j+1) = some '=' then
            scan f buf1 pv (some (PvRef.here (j+2))) Sign.EQ Sign.EQ (j+2)
          else
            scan f buf1 pv (some (PvRef.here (j+1))) sg Sign.EQ (j+1)
      else
        scan f buf pv pv2 sg sg2 (j+1)

/-- The constraint state carried across the specifier loop: `pkgversion`,
`pkgversion2`, `sign`, `sign2`.  These C variables are declared outside
the `do { } while` loop and are never reset between specifiers. -/
structure CState where
  pv : Option (List Char)
  pv2 : Option (List Char)
  sign : Sign
  sign2 : Sign
deriving DecidableEq

/-- Initial constraint state: both pointers `NULL`, both `int` signs `0`
(`= LT`). -/
def initCState : CState := ⟨none, none, Sign.LT, Sign.LT⟩

/-- The trailing-slash strip of source lines 246-247 (`pkgname[strlen-1]`
is overwritten with NUL when it is a slash). -/
def stripSlash (tok : List Char) : List Char :=
  if tok ≠ [] ∧ tok.getLast? = some '/' then tok.dropLast else tok

/-- Run the operator scan on an (already slash-stripped) token and resolve
the name and version strings from the final buffer. -/
def parseFrom (st : CState) (tok : List Char) : List Char × CState :=
  match scan (tok.length + 2) tok (st.pv.map PvRef.stale) (st.pv2.map PvRef.stale)
      st.sign st.sign2 0 with
  | (buf, pv, pv2, sg, sg2) =>
    (cstring buf 0, ⟨pv.map (resolvePv buf), pv2.map (resolvePv buf), sg, sg2⟩)

/-- Per-specifier parsing: trailing-slash strip followed by the operator
scan, threading the constraint state left over from earlier specifiers. -/
def parseToken (st : CState) (token : List Char) : List Char × CState :=
  parseFrom st (stripSlash token)

/-- One `switch (pkg_version_cmp(...))` block (source lines 359-380 and
383-404): whether a candidate with comparison result `cmp` against the
bound is kept by operator `sg`.  The C switch has no default case, so a
comparison result outside `{-1,0,1}` drops nothing. -/
def keepOne (cmp : Int) (sg : Sign) : Bool :=
  if cmp = -1 then decide (sg = Sign.LT ∨ sg = Sign.LE)
  else if cmp = 0 then decide (sg = Sign.LE ∨ sg = Sign.GE ∨ sg = Sign.EQ)
  else if cmp = 1 then decide (sg = Sign.GT ∨ sg = Sign.GE)
  else true

/-- Constraint 1 check: trivially true when `pkgversion` is `NULL`. -/
def keep1 (vc : List Char → List Char → Int) (cs : CState) (p : List Char) : Bool :=
  match cs.pv with
  | none => true
  | some v => keepOne (vc p v) cs.sign

/-- Constraint 2 check: trivially true when `pkgversion2` is `NULL`. -/
def keep2 (vc : List Char → List Char → Int) (cs : CState) (p : List Char) : Bool :=
  match cs.pv2 with
  | none => true
  | some v => keepOne (vc p v) cs.sign2

/-- A candidate version survives the filter iff both present constraints
keep it. -/
def survives (vc : List Char → List Char → Int) (cs : CState) (p : List Char) : Bool :=
  keep1 vc cs p && keep2 vc cs p

/-- A candidate package record: name and version, as yielded by the
database iterator. -/
structure Pkg where
  name : List Char
  version : List Char
deriving DecidableEq

/-- The result of draining one database iterator: the yielded candidates
in order, and whether iteration ended with `EPKG_END` (`clean = true`) or
with an error. -/
structure ItRes where
  pkgs : List Pkg
  clean : Bool
deriving DecidableEq

/-- The candidate iteration (source lines 353-410).  Each pulled candidate
first sets `gotone = true`; a candidate dropped by either constraint sets
`gotone = false` and continues; a surviving candidate either flips
`retcode` to `EX_OK` (exists-only mode `-e`) or is handed to the formatter
(`print_info`, modelled by appending to `out`). -/
def iterCands (vc : List Char → List Char → Int) (cs : CState) (e : Bool) :
    List Pkg → Bool → Nat → List Pkg → Bool × Nat × List Pkg
  | [], gotone, rc, out => (gotone, rc, out)
  | p :: rest, _, rc, out =>
    if keep1 vc cs p.version = false then iterCands vc cs e rest false rc out
    else if keep2 vc cs p.version = false then iterCands vc cs e rest false rc out
    else if e then iterCands vc cs e rest true EX_OK out
    else iterCands vc cs e rest true rc (out ++ [p])

/-- The single-exact-match disclosure (source lines 342-350): with exactly
one argument, glob mode, not origin-search, not quiet, not `-E`, a name
free of glob metacharacters (`strcspn(pkgname, "*[]\x7b\x7d()") ==
strlen(pkgname)`) and a bare `INFO_TAG_NAMEVER` option set, `INFO_FULL` is
added. -/
def globChars : List Char := ['*', '[', ']', '\x7b', '\x7d', '(', ')']

/-- `strcspn(name, "*[]\x7b\x7d()") == strlen(name)`: the name contains no
glob metacharacter. -/
def noGlobChars (s : List Char) : Bool :=
  s.all (fun c => !(globChars.contains c))

/-- Source lines 342-350: conditionally add `INFO_FULL` to the option
set. -/
def discloseFull (argc : Nat) (origin quiet eflag : Bool) (mt : MatchT)
    (name : List Char) (opt : QueryOpt) : QueryOpt :=
  if argc = 1 ∧ origin = false ∧ quiet = false ∧ eflag = false ∧
     mt = MatchT.MATCH_GLOB ∧ noGlobChars name = true ∧ opt = ({} : QueryOpt)
  then { opt with full := true } else opt

/-- The state threaded through the specifier loop: `retcode`, `opt` (it
can be widened by the disclosure rule), the constraint state, the records
handed to the formatter so far, and the log of database queries opened so
far. -/
structure LoopSt where
  retcode : Nat
  opt : QueryOpt
  cs : CState
  out : List Pkg
  queries : List (Option (List Char) × MatchT)
deriving DecidableEq

/-- The outcome of one loop iteration: `abort` models the early
`return (EX_IOERR)` when `pkgdb_query` yields `NULL`; `cont` continues
with the next specifier. -/
inductive StepRes where
  | abort (code : Nat) (out : List Pkg) (queries : List (Option (List Char) × MatchT))
  | cont (st : LoopSt)

/-- The final observable outcome of the specifier loop: the returned exit
status, the records handed to the formatter, and the queries opened. -/
structure RunRes where
  retcode : Nat
  out : List Pkg
  queries : List (Option (List Char) × MatchT)
deriving DecidableEq

/-- The body of one `do { } while` iteration after parsing (source lines
323-421): empty-pattern rejection, database query, origin-search seeding
of `gotone`, disclosure, candidate iteration, the `EPKG_END` check, and
the no-match status update. -/
def procParsed (db : Option (List Char) → MatchT → Option ItRes)
    (vc : List Char → List Char → Int) (mt : MatchT)
    (origin quiet e eflag : Bool) (argc : Nat)
    (nameOpt : Option (List Char)) (cs1 : CState) (st : LoopSt) : StepRes :=
  if mt ≠ MatchT.MATCH_ALL ∧ nameOpt = some ([] : List Char) then
    StepRes.cont { st with cs := cs1 }
  else
    match db nameOpt mt with
    | none => StepRes.abort EX_IOERR st.out (st.queries ++ [(nameOpt, mt)])
    | some itres =>
      let opt1 := discloseFull argc origin quiet eflag mt (nameOpt.getD []) st.opt
      let r := iterCands vc cs1 e itres.pkgs origin st.retcode st.out
      let rc2 := if itres.clean = false then EX_IOERR else r.2.1
      let rc3 := if rc2 = EX_OK ∧ r.1 = false ∧ mt ≠ MatchT.MATCH_ALL
                 then EX_SOFTWARE else rc2
      StepRes.cont ⟨rc3, opt1, cs1, r.2.2, st.queries ++ [(nameOpt, mt)]⟩

/-- One full `do { } while` iteration: parse the argument (when there is
one; with zero arguments the single pass queries with a `NULL` pattern in
`MATCH_ALL` mode), then run the post-parse body. -/
def procSpec (db : Option (List Char) → MatchT → Option ItRes)
    (vc : List Char → List Char → Int) (mt : MatchT)
    (origin quiet e eflag : Bool) (argc : Nat)
    (arg : Option (List Char)) (st : LoopSt) : StepRes :=
  match arg with
  | none => procParsed db vc mt origin quiet e eflag argc none st.cs st
  | some tok =>
    let p := parseToken st.cs tok
    procParsed db vc mt origin quiet e eflag argc (some p.1) p.2 st

/-- The specifier loop over all arguments. -/
def runSpecs (db : Option (List Char) → MatchT → Option ItRes)
    (vc : List Char → List Char → Int) (mt : MatchT)
    (origin quiet e eflag : Bool) (argc : Nat) :
    List (Option (List Char)) → LoopSt → RunRes
  | [], st => ⟨st.retcode, st.out, st.queries⟩
  | a :: rest, st =>
    match procSpec db vc mt origin quiet e eflag argc a st with
    | StepRes.abort c out qs => ⟨c, out, qs⟩
    | StepRes.cont st1 => runSpecs db vc mt origin quiet e eflag argc rest st1

/-- The initial `retcode`: `0`, except that option `-e` sets `retcode = 1`
during option parsing (source lines 101-104). -/
def initRetcode (e : Bool) : Nat := if e then 1 else EX_OK

/-- Initial loop state on entry to the `do { } while` loop. -/
def initLoopSt (e : Bool) (opt : QueryOpt) : LoopSt :=
  ⟨initRetcode e, opt, initCState, [], []⟩

/-- The database path of `exec_info` from the top of the specifier loop:
run the loop over the argument list (the loop body runs once with a
`NULL` pattern when there are no arguments) and return the final exit
status, formatter output and query log. -/
def execLoop (db : Option (List Char) → MatchT → Option ItRes)
    (vc : List Char → List Char → Int) (mt : MatchT)
    (origin quiet e eflag : Bool) (opt : QueryOpt)
    (args : List (List Char)) : RunRes :=
  runSpecs db vc mt origin quiet e eflag args.length
    (if args = [] then [none] else args.map some) (initLoopSt e opt)

/-- The pre-loop configuration adjusted by the policy block (source lines
182-199). -/
structure Config where
  mt : MatchT
  origin : Bool
  quiet : Bool
  e : Bool
  eflag : Bool
  opt : QueryOpt
deriving DecidableEq

/-- Source lines 182-186: when nothing besides the name-version tag is
requested, mode is `MATCH_ALL`, output is not quiet and origin-search is
off, default to also printing the comment. -/
def policyComment (c : Config) : Config :=
  if c.origin = false ∧ hasCategory c.opt = false ∧ c.mt = MatchT.MATCH_ALL ∧
     c.quiet = false
  then { c with opt := { c.opt with comment := true } } else c

/-- Source lines 188-196: origin-search compatibility forces the option
set to exactly name-version (quiet) or name-version plus comment. -/
def policyOrigin (c : Config) : Config :=
  if c.origin = true then
    (if c.quiet = true then { c with opt := {}, quiet := false }
     else { c with opt := ({ comment := true } : QueryOpt) })
  else c

/-- Source lines 198-199: `MATCH_ALL` with a bare name-version option set
forces quiet off. -/
def policyQuietReset (c : Config) : Config :=
  if c.mt = MatchT.MATCH_ALL ∧ c.opt = ({} : QueryOpt)
  then { c with quiet := false } else c

/-- The whole pre-loop policy block, lines 182-199 in order. -/
def applyPolicy (c : Config) : Config :=
  policyQuietReset (policyOrigin (policyComment c))

/-- A name containing a literal `*` is not metacharacter-free. -/
theorem star_not_clean {name : List Char} (h : '*' ∈ name) :
    noGlobChars name = false := by
  cases hx : noGlobChars name
  · rfl
  · have h2 := (List.all_eq_true.mp hx) '*' h
    exact absurd h2 (by decide)

/-- C2: the code is evaluated at the failing input: parsing
`pkg>1.0<=2.0` yields constraint 1 = `(LE, 1.0)` and constraint 2 =
`(LT, 2.0)` — the `=`-upgrade taken while filling constraint 2 was
written to `sign` (constraint 1) instead of `sign2`, so constraint 2 is
not upgraded to `LE` and constraint 1 does not keep its recorded `GT`. -/
theorem C2_upgrade_eval :
    parseToken initCState "pkg>1.0<=2.0".toList =
      ("pkg".toList,
        ⟨some "1.0".toList, some "2.0".toList, Sign.LE, Sign.LT⟩) ∧
    Sign.LE ≠ Sign.GT ∧ Sign.LT ≠ Sign.LE := by
  refine ⟨by decide, by decide, by decide⟩

/-- C4: the constraint evaluator keeps a candidate iff each present
constraint keeps it independently, and a single constraint with
comparison result in `{-1,0,+1}` keeps the candidate exactly under the
claimed operator sets. -/
theorem C4_evaluator_iff :
    (∀ (cmp : Int) (sg : Sign), cmp = -1 ∨ cmp = 0 ∨ cmp = 1 →
      (keepOne cmp sg = true ↔
        ((cmp = -1 → sg = Sign.LT ∨ sg = Sign.LE) ∧
         (cmp = 0 → sg = Sign.LE ∨ sg = Sign.GE ∨ sg = Sign.EQ) ∧
         (cmp = 1 → sg = Sign.GT ∨ sg = Sign.GE)))) ∧
    (∀ (vc : List Char → List Char → Int) (cs : CState) (p : List Char),
      survives vc cs p = true ↔
        ((∀ v, cs.pv = some v → keepOne (vc p v) cs.sign = true) ∧
         (∀ v, cs.pv2 = some v → keepOne (vc p v) cs.sign2 = true))) := by
  constructor
  · intro cmp sg h
    rcases h with h | h | h <;> subst h <;> cases sg <;> decide
  · intro vc cs p
    rcases cs with ⟨pv, pv2, sg, sg2⟩
    cases pv <;> cases pv2 <;> simp [survives, keep1, keep2]

/-- Witness for C4 at concrete inputs. -/
theorem C4_evaluator_iff_witness :
    keepOne (-1) Sign.LE = true ∧
    survives (fun _ _ => (0 : Int)) initCState [] = true := by
  constructor
  · exact (C4_evaluator_iff.1 (-1) Sign.LE (Or.inl rfl)).mpr (by decide)
  · exact (C4_evaluator_iff.2 (fun _ _ => 0) initCState []).mpr
      ⟨fun v h => by simp [initCState] at h, fun v h => by simp [initCState] at h⟩

/-- C8: with exactly one argument, glob (not regex) mode, not quiet, not
origin-search, not `-E`, a metacharacter-free name and the bare default
category set, `INFO_FULL` is added; a name containing `*` is never
augmented, whatever the other inputs. -/
theorem C8_disclosure :
    (∀ (name : List Char), noGlobChars name = true →
      (discloseFull 1 false false false MatchT.MATCH_GLOB name {}).full = true) ∧
    (∀ (argc : Nat) (origin quiet eflag : Bool) (mt : MatchT)
        (name : List Char) (opt : QueryOpt),
      '*' ∈ name →
      discloseFull argc origin quiet eflag mt name opt = opt) := by
  constructor
  · intro name h
    simp [discloseFull, h]
  · intro argc origin quiet eflag mt name opt h
    simp [discloseFull, star_not_clean h]

/-- Witness for C8: `libfoo` is augmented with full detail, `lib*` stays
bare. -/
theorem C8_disclosure_witness :
    (discloseFull 1 false false false MatchT.MATCH_GLOB "libfoo".toList {}).full = true ∧
    discloseFull 1 false false false MatchT.MATCH_GLOB "lib*".toList {} = ({} : QueryOpt) := by
  constructor
  · exact C8_disclosure.1 "libfoo".toList (by decide)
  · exact C8_disclosure.2 1 false false false MatchT.MATCH_GLOB "lib*".toList {} (by decide)

/-- C5 counterexample: with no category flag, quiet off, origin-search
off and match mode GLOB (not the exhaustive ALL mode, as the claim
requires), the policy block does not add the comment category: the
requested set stays the bare name-version tag. -/
theorem C5_counterexample :
    hasCategory ({} : QueryOpt) = false ∧
    MatchT.MATCH_GLOB ≠ MatchT.MATCH_ALL ∧
    (applyPolicy ⟨MatchT.MATCH_GLOB, false, false, false, false, {}⟩).opt.comment = false := by
  decide

/-- C5 amended: the comment default applies when the match mode IS
`MATCH_ALL` (not when it is not): with no category flag, mode
`MATCH_ALL` and quiet off, the resulting category set includes the
comment. -/
theorem C5_comment_default (c : Config) (h1 : hasCategory c.opt = false)
    (h2 : c.mt = MatchT.MATCH_ALL) (h3 : c.quiet = false) :
    (applyPolicy c).opt.comment = true := by
  rcases c with ⟨mt, origin, quiet, e, eflag, opt⟩
  simp only at h1 h2 h3
  subst h2; subst h3
  cases origin
  · have hc : policyComment ⟨MatchT.MATCH_ALL, false, false, e, eflag, opt⟩ =
        ⟨MatchT.MATCH_ALL, false, false, e, eflag, { opt with comment := true }⟩ := by
      unfold policyComment
      rw [if_pos ⟨rfl, h1, rfl, rfl⟩]
    unfold applyPolicy
    rw [hc]
    unfold policyOrigin
    rw [if_neg (by simp)]
    unfold policyQuietReset
    split_ifs <;> rfl
  · have hc : policyComment ⟨MatchT.MATCH_ALL, true, false, e, eflag, opt⟩ =
        ⟨MatchT.MATCH_ALL, true, false, e, eflag, opt⟩ := by
      unfold policyComment
      rw [if_neg (by simp)]
    unfold applyPolicy
    rw [hc]
    unfold policyOrigin
    rw [if_pos rfl, if_neg (by simp)]
    unfold policyQuietReset
    split_ifs <;> rfl

/-- Witness for C5's amended theorem at a concrete configuration. -/
theorem C5_comment_default_witness :
    (applyPolicy ⟨MatchT.MATCH_ALL, false, false, false, false, {}⟩).opt.comment = true :=
  C5_comment_default _ (by decide) rfl rfl

/-- C9: whenever match mode is `MATCH_ALL` and the category set after the
policy block is the bare name-version default, quiet has been forced off;
in particular `-a -q` ends in exactly the same (non-quiet, bare) state as
a non-quiet `-a` invocation with that category set. -/
theorem C9_quiet_reset :
    (∀ c : Config, c.mt = MatchT.MATCH_ALL →
      (applyPolicy c).opt = ({} : QueryOpt) → (applyPolicy c).quiet = false) ∧
    applyPolicy ⟨MatchT.MATCH_ALL, false, true, false, false, {}⟩ =
      ⟨MatchT.MATCH_ALL, false, false, false, false, {}⟩ := by
  constructor
  · intro c hmt hopt
    unfold applyPolicy at hopt ⊢
    have hmt2 : (policyOrigin (policyComment c)).mt = MatchT.MATCH_ALL := by
      unfold policyOrigin policyComment
      split_ifs <;> simp [hmt]
    unfold policyQuietReset at hopt ⊢
    split_ifs at hopt ⊢ with h
    · rfl
    · exact absurd ⟨hmt2, hopt⟩ h
  · decide

/-- Witness for C9 at the `-a -q` configuration. -/
theorem C9_quiet_reset_witness :
    (applyPolicy ⟨MatchT.MATCH_ALL, false, true, false, false, {}⟩).quiet = false :=
  C9_quiet_reset.1 _ rfl (by decide)

/-- Outside exists-only mode the candidate iteration never modifies
`retcode`. -/
theorem iterCands_rc_noExists (vc : List Char → List Char → Int) (cs : CState) :
    ∀ (ps : List Pkg) (g : Bool) (rc : Nat) (out : List Pkg),
      (iterCands vc cs false ps g rc out).2.1 = rc := by
  intro ps
  induction ps with
  | nil => intro g rc out; rfl
  | cons p rest ih =>
    intro g rc out
    by_cases h1 : keep1 vc cs p.version = false
    · simp [iterCands, h1, ih]
    · by_cases h2 : keep2 vc cs p.version = false
      · simp [iterCands, h1, h2, ih]
      · simp [iterCands, h1, h2, ih]

/-- Once `retcode` is `EX_OK` the candidate iteration keeps it there. -/
theorem iterCands_rc_ok (vc : List Char → List Char → Int) (cs : CState) (e : Bool) :
    ∀ (ps : List Pkg) (g : Bool) (out : List Pkg),
      (iterCands vc cs e ps g EX_OK out).2.1 = EX_OK := by
  intro ps
  induction ps with
  | nil => intro g out; rfl
  | cons p rest ih =>
    intro g out
    by_cases h1 : keep1 vc cs p.version = false
    · simp [iterCands, h1, ih]
    · by_cases h2 : keep2 vc cs p.version = false
      · simp [iterCands, h1, h2, ih]
      · rcases Bool.eq_false_or_eq_true e with he | he
        · subst he
          simp [iterCands, h1, h2, ih]
        · subst he
          simp [iterCands, h1, h2, ih]

/-- In exists-only mode any surviving candidate flips `retcode` to
`EX_OK`, and it stays there for the rest of the iteration. -/
theorem iterCands_exists_ok (vc : List Char → List Char → Int) (cs : CState) :
    ∀ (ps : List Pkg) (g : Bool) (rc : Nat) (out : List Pkg),
      (∃ p ∈ ps, survives vc cs p.version = true) →
      (iterCands vc cs true ps g rc out).2.1 = EX_OK := by
  intro ps
  induction ps with
  | nil =>
    intro g rc out h
    rcases h with ⟨p, hp, _⟩
    cases hp
  | cons p rest ih =>
    intro g rc out h
    by_cases h1 : keep1 vc cs p.version = false
    · simp only [iterCands, if_pos h1]
      rcases h with ⟨p0, hp0, hs0⟩
      rcases List.mem_cons.mp hp0 with heq | hmem
      · subst heq
        have : keep1 vc cs p0.version = true := by
          have := (Bool.and_eq_true _ _).mp hs0
          exact this.1
        rw [this] at h1
        cases h1
      · exact ih false rc out ⟨p0, hmem, hs0⟩
    · by_cases h2 : keep2 vc cs p.version = false
      · simp only [iterCands, if_neg h1, if_pos h2]
        rcases h with ⟨p0, hp0, hs0⟩
        rcases List.mem_cons.mp hp0 with heq | hmem
        · subst heq
          have : keep2 vc cs p0.version = true := by
            have := (Bool.and_eq_true _ _).mp hs0
            exact this.2
          rw [this] at h2
          cases h2
        · exact ih false rc out ⟨p0, hmem, hs0⟩
      · simp only [iterCands, if_neg h1, if_neg h2, if_pos rfl]
        exact iterCands_rc_ok vc cs true rest true out

/-- In exists-only mode the candidate iteration emits no records. -/
theorem iterCands_out_exists (vc : List Char → List Char → Int) (cs : CState) :
    ∀ (ps : List Pkg) (g : Bool) (rc : Nat) (out : List Pkg),
      (iterCands vc cs true ps g rc out).2.2 = out := by
  intro ps
  induction ps with
  | nil => intro g rc out; rfl
  | cons p rest ih =>
    intro g rc out
    by_cases h1 : keep1 vc cs p.version = false
    · simp [iterCands, h1, ih]
    · by_cases h2 : keep2 vc cs p.version = false
      · simp [iterCands, h1, h2, ih]
      · simp [iterCands, h1, h2, ih]

/-- In exists-only mode one loop iteration leaves the formatter output
unchanged, on every exit path. -/
theorem procParsed_out_exists (db : Option (List Char) → MatchT → Option ItRes)
    (vc : List Char → List Char → Int) (mt : MatchT)
    (origin quiet eflag : Bool) (argc : Nat)
    (nameOpt : Option (List Char)) (cs1 : CState) (st : LoopSt) :
    (∀ c o q, procParsed db vc mt origin quiet true eflag argc nameOpt cs1 st =
        StepRes.abort c o q → o = st.out) ∧
    (∀ st1, procParsed db vc mt origin quiet true eflag argc nameOpt cs1 st =
        StepRes.cont st1 → st1.out = st.out) := by
  unfold procParsed
  split_ifs with hrej
  · constructor
    · intro c o q h; cases h
    · intro st1 h
      cases h
      rfl
  · cases hdb : db nameOpt mt with
    | none =>
      constructor
      · intro c o q h
        dsimp only at h
        cases h
        rfl
      · intro st1 h
        dsimp only at h
        cases h
    | some itres =>
      constructor
      · intro c o q h
        dsimp only at h
        cases h
      · intro st1 h
        dsimp only at h
        cases h
        exact iterCands_out_exists vc cs1 itres.pkgs origin st.retcode st.out

/-- In exists-only mode the whole specifier loop emits no records. -/
theorem runSpecs_out_exists (db : Option (List Char) → MatchT → Option ItRes)
    (vc : List Char → List Char → Int) (mt : MatchT)
    (origin quiet eflag : Bool) (argc : Nat) :
    ∀ (specs : List (Option (List Char))) (st : LoopSt),
      (runSpecs db vc mt origin quiet true eflag argc specs st).out = st.out := by
  intro specs
  induction specs with
  | nil => intro st; rfl
  | cons a rest ih =>
    intro st
    cases a with
    | none =>
      simp only [runSpecs, procSpec]
      cases hstep : procParsed db vc mt origin quiet true eflag argc none st.cs st with
      | abort c o q =>
        exact (procParsed_out_exists db vc mt origin quiet eflag argc none st.cs st).1 c o q hstep
      | cont st1 =>
        rw [ih st1]
        exact (procParsed_out_exists db vc mt origin quiet eflag argc none st.cs st).2 st1 hstep
    | some tok =>
      simp only [runSpecs, procSpec]
      cases hstep : procParsed db vc mt origin quiet true eflag argc
          (some (parseToken st.cs tok).1) (parseToken st.cs tok).2 st with
      | abort c o q =>
        exact (procParsed_out_exists db vc mt origin quiet eflag argc
          (some (parseToken st.cs tok).1) (parseToken st.cs tok).2 st).1 c o q hstep
      | cont st1 =>
        rw [ih st1]
        exact (procParsed_out_exists db vc mt origin quiet eflag argc
          (some (parseToken st.cs tok).1) (parseToken st.cs tok).2 st).2 st1 hstep

/-- Outside exists-only mode one loop iteration never brings a non-`EX_OK`
`retcode` back to `EX_OK`. -/
theorem procParsed_ne_ok (db : Option (List Char) → MatchT → Option ItRes)
    (vc : List Char → List Char → Int) (mt : MatchT)
    (origin quiet eflag : Bool) (argc : Nat)
    (nameOpt : Option (List Char)) (cs1 : CState) (st : LoopSt)
    (h : st.retcode ≠ EX_OK) :
    (∀ c o q, procParsed db vc mt origin quiet false eflag argc nameOpt cs1 st =
        StepRes.abort c o q → c ≠ EX_OK) ∧
    (∀ st1, procParsed db vc mt origin quiet false eflag argc nameOpt cs1 st =
        StepRes.cont st1 → st1.retcode ≠ EX_OK) := by
  unfold procParsed
  split_ifs with hrej
  · constructor
    · intro c o q hh; cases hh
    · intro st1 hh
      cases hh
      exact h
  · cases hdb : db nameOpt mt with
    | none =>
      constructor
      · intro c o q hh
        dsimp only at hh
        cases hh
        decide
      · intro st1 hh
        dsimp only at hh
        cases hh
    | some itres =>
      constructor
      · intro c o q hh
        dsimp only at hh
        cases hh
      · intro st1 hh
        dsimp only at hh
        cases hh
        dsimp only
        rw [iterCands_rc_noExists vc cs1 itres.pkgs origin st.retcode st.out]
        split_ifs <;> first | decide | exact h

/-- Outside exists-only mode the specifier loop never returns to `EX_OK`
once the threaded status is a failure: a later specifier's success does
not overwrite an earlier failure. -/
theorem runSpecs_ne_ok (db : Option (List Char) → MatchT → Option ItRes)
    (vc : List Char → List Char → Int) (mt : MatchT)
    (origin quiet eflag : Bool) (argc : Nat) :
    ∀ (specs : List (Option (List Char))) (st : LoopSt), st.retcode ≠ EX_OK →
      (runSpecs db vc mt origin quiet false eflag argc specs st).retcode ≠ EX_OK := by
  intro specs
  induction specs with
  | nil => intro st h; exact h
  | cons a rest ih =>
    intro st h
    cases a with
    | none =>
      simp only [runSpecs, procSpec]
      cases hstep : procParsed db vc mt origin quiet false eflag argc none st.cs st with
      | abort c o q =>
        exact (procParsed_ne_ok db vc mt origin quiet eflag argc none st.cs st h).1 c o q hstep
      | cont st1 =>
        exact ih st1 ((procParsed_ne_ok db vc mt origin quiet eflag argc none st.cs st h).2
          st1 hstep)
    | some tok =>
      simp only [runSpecs, procSpec]
      cases hstep : procParsed db vc mt origin quiet false eflag argc
          (some (parseToken st.cs tok).1) (parseToken st.cs tok).2 st with
      | abort c o q =>
        exact (procParsed_ne_ok db vc mt origin quiet eflag argc
          (some (parseToken st.cs tok).1) (parseToken st.cs tok).2 st h).1 c o q hstep
      | cont st1 =>
        exact ih st1 ((procParsed_ne_ok db vc mt origin quiet eflag argc
          (some (parseToken st.cs tok).1) (parseToken st.cs tok).2 st h).2 st1 hstep)

/-- C1 counterexample: in the default (non-exists) mode, with specifier
`a` matching nothing and specifier `b` matching one package, the final
status is `EX_SOFTWARE`, although specifier `b` processed alone yields
`EX_OK` — the last specifier's own (successful) status does not become
the final status, contradicting last-writer-wins. -/
theorem C1_counterexample :
    (execLoop
      (fun p _ => if p = some "b".toList
        then some ⟨[⟨"b".toList, "1".toList⟩], true⟩ else some ⟨[], true⟩)
      (fun _ _ => 0) MatchT.MATCH_GLOB false false false false {}
      ["a".toList, "b".toList]).retcode = EX_SOFTWARE ∧
    (execLoop
      (fun p _ => if p = some "b".toList
        then some ⟨[⟨"b".toList, "1".toList⟩], true⟩ else some ⟨[], true⟩)
      (fun _ _ => 0) MatchT.MATCH_GLOB false false false false {}
      ["b".toList]).retcode = EX_OK ∧
    EX_SOFTWARE ≠ EX_OK := by
  refine ⟨by decide, by decide, by decide⟩

/-- C1 amended: the status is threaded through the batch, not recomputed
per specifier.  Outside exists-only mode a failure, once recorded, is
never overwritten by a later success (first conjunct); only in
exists-only mode does the spec's example hold: specifier 1 `NoMatch`
followed by specifier 2 matching yields final status success (second
conjunct). -/
theorem C1_status_threading :
    (∀ (db : Option (List Char) → MatchT → Option ItRes)
        (vc : List Char → List Char → Int) (mt : MatchT)
        (origin quiet eflag : Bool) (argc : Nat)
        (specs : List (Option (List Char))) (st : LoopSt),
      st.retcode ≠ EX_OK →
      (runSpecs db vc mt origin quiet false eflag argc specs st).retcode ≠ EX_OK) ∧
    (execLoop
      (fun p _ => if p = some "b".toList
        then some ⟨[⟨"b".toList, "1".toList⟩], true⟩ else some ⟨[], true⟩)
      (fun _ _ => 0) MatchT.MATCH_GLOB false false true false {}
      ["a".toList, "b".toList]).retcode = EX_OK := by
  constructor
  · intro db vc mt origin quiet eflag argc specs st h
    exact runSpecs_ne_ok db vc mt origin quiet eflag argc specs st h
  · decide

/-- Witness for C1's amended theorem: starting a batch with a recorded
`EX_SOFTWARE`, a matching specifier leaves the status non-`EX_OK`. -/
theorem C1_status_threading_witness :
    (runSpecs
      (fun p _ => if p = some "b".toList
        then some ⟨[⟨"b".toList, "1".toList⟩], true⟩ else some ⟨[], true⟩)
      (fun _ _ => 0) MatchT.MATCH_GLOB false false false false 1
      [some "b".toList] ⟨EX_SOFTWARE, {}, initCState, [], []⟩).retcode ≠ EX_OK :=
  C1_status_threading.1 _ _ _ _ _ _ _ _ _ (by decide)

/-- C3: the code is evaluated at the failing input: with constraint
`<2.0` and candidate stream `foo-1.0, foobar-3.0`, the first candidate
survives (and is handed to the formatter), but dropping the second resets
`gotone`, so the specifier ends with `gotone = false` and exit status
`EX_SOFTWARE` even though a record was printed. -/
theorem C3_gotone_eval :
    survives (fun v _ => if v = "1.0".toList then (-1 : Int) else 1)
      ⟨some "2.0".toList, none, Sign.LT, Sign.LT⟩ "1.0".toList = true ∧
    (iterCands (fun v _ => if v = "1.0".toList then (-1 : Int) else 1)
      ⟨some "2.0".toList, none, Sign.LT, Sign.LT⟩ false
      [⟨"foo".toList, "1.0".toList⟩, ⟨"foobar".toList, "3.0".toList⟩]
      false EX_OK []).1 = false ∧
    (execLoop
      (fun _ _ => some ⟨[⟨"foo".toList, "1.0".toList⟩, ⟨"foobar".toList, "3.0".toList⟩], true⟩)
      (fun v _ => if v = "1.0".toList then (-1 : Int) else 1)
      MatchT.MATCH_GLOB false false false false {}
      ["foo*<2.0".toList]).retcode = EX_SOFTWARE ∧
    (execLoop
      (fun _ _ => some ⟨[⟨"foo".toList, "1.0".toList⟩, ⟨"foobar".toList, "3.0".toList⟩], true⟩)
      (fun v _ => if v = "1.0".toList then (-1 : Int) else 1)
      MatchT.MATCH_GLOB false false false false {}
      ["foo*<2.0".toList]).out = [⟨"foo".toList, "1.0".toList⟩] := by
  refine ⟨by decide, by decide, by decide, by decide⟩

/-- C6: the code is evaluated at the failing input: under origin-search
(`-q -O`, whose policy result is origin-search with quiet forced off and
a bare option set), a specifier carrying a constraint that drops every
candidate ends with exit status `EX_SOFTWARE`, not success — pulling a
candidate overwrites the seeded `gotone = true`, and dropping it leaves
`gotone = false`. -/
theorem C6_origin_eval :
    (applyPolicy ⟨MatchT.MATCH_GLOB, true, true, false, false, {}⟩ =
      ⟨MatchT.MATCH_GLOB, true, false, false, false, {}⟩) ∧
    (execLoop (fun _ _ => some ⟨[⟨"foo".toList, "0.5".toList⟩], true⟩)
      (fun _ _ => (-1 : Int)) MatchT.MATCH_GLOB true false false false {}
      ["foo>1.0".toList]).retcode = EX_SOFTWARE ∧
    EX_SOFTWARE ≠ EX_OK := by
  refine ⟨by decide, by decide, by decide⟩

/-- C7: exists-only mode: the status starts at the distinguished
not-found code `1`; the whole loop hands no record to the formatter; and
within a specifier's iteration any surviving candidate flips the status
to `EX_OK` (where it stays). -/
theorem C7_exists_mode :
    initRetcode true = 1 ∧
    (∀ (db : Option (List Char) → MatchT → Option ItRes)
        (vc : List Char → List Char → Int) (mt : MatchT)
        (origin quiet eflag : Bool) (opt : QueryOpt) (args : List (List Char)),
      (execLoop db vc mt origin quiet true eflag opt args).out = []) ∧
    (∀ (vc : List Char → List Char → Int) (cs : CState) (ps : List Pkg)
        (g : Bool) (rc : Nat) (out : List Pkg),
      (∃ p ∈ ps, survives vc cs p.version = true) →
      (iterCands vc cs true ps g rc out).2.1 = EX_OK) := by
  refine ⟨rfl, ?_, ?_⟩
  · intro db vc mt origin quiet eflag opt args
    exact runSpecs_out_exists db vc mt origin quiet eflag args.length _ (initLoopSt true opt)
  · intro vc cs ps g rc out h
    exact iterCands_exists_ok vc cs ps g rc out h

/-- Witness for C7 at concrete inputs: one matching candidate yields no
output and flips the not-found status to `EX_OK`. -/
theorem C7_exists_mode_witness :
    (execLoop (fun _ _ => some ⟨[⟨"b".toList, "1".toList⟩], true⟩)
      (fun _ _ => 0) MatchT.MATCH_GLOB false false true false {}
      ["b".toList]).out = [] ∧
    (iterCands (fun _ _ => (0 : Int)) initCState true
      [⟨"b".toList, "1".toList⟩] false 1 []).2.1 = EX_OK := by
  constructor
  · exact C7_exists_mode.2.1 _ _ _ _ _ _ _ _
  · exact C7_exists_mode.2.2 _ _ _ _ _ _ ⟨⟨"b".toList, "1".toList⟩, by decide, by decide⟩

/-- Parsing an empty (slash-stripped) token yields an empty name. -/
theorem parseFrom_nil_name (st : CState) : (parseFrom st []).1 = [] := rfl

/-- An empty specifier under a non-`MATCH_ALL` mode is rejected: the loop
state is unchanged except for the (already mutated) constraint state, and
no database query is opened. -/
theorem procSpec_reject (db : Option (List Char) → MatchT → Option ItRes)
    (vc : List Char → List Char → Int) (mt : MatchT)
    (origin quiet e eflag : Bool) (argc : Nat) (tok : List Char) (st : LoopSt)
    (hmt : mt ≠ MatchT.MATCH_ALL) (hstrip : stripSlash tok = []) :
    procSpec db vc mt origin quiet e eflag argc (some tok) st =
      StepRes.cont { st with cs := (parseToken st.cs tok).2 } := by
  have hname : (parseToken st.cs tok).1 = [] := by
    unfold parseToken
    rw [hstrip]
    exact parseFrom_nil_name st.cs
  simp only [procSpec]
  rw [hname]
  unfold procParsed
  rw [if_pos ⟨hmt, rfl⟩]

/-- A batch consisting only of empty specifiers leaves status, output and
query log untouched. -/
theorem runSpecs_all_rejected (db : Option (List Char) → MatchT → Option ItRes)
    (vc : List Char → List Char → Int) (mt : MatchT)
    (origin quiet e eflag : Bool) (argc : Nat)
    (hmt : mt ≠ MatchT.MATCH_ALL) :
    ∀ (args : List (List Char)) (st : LoopSt),
      (∀ tok ∈ args, stripSlash tok = []) →
      runSpecs db vc mt origin quiet e eflag argc (args.map some) st =
        ⟨st.retcode, st.out, st.queries⟩ := by
  intro args
  induction args with
  | nil => intro st h; rfl
  | cons a rest ih =>
    intro st h
    simp only [List.map, runSpecs]
    rw [procSpec_reject db vc mt origin quiet e eflag argc a st hmt
      (h a (List.mem_cons_self a rest))]
    exact ih _ (fun tok htok => h tok (List.mem_cons_of_mem a htok))

/-- C10: a specifier that is empty after trailing-slash stripping under a
non-`MATCH_ALL` mode is skipped: the step leaves status, output and query
log unchanged (only the constraint state, mutated by the parse, is
carried); and a batch consisting only of such specifiers exits with the
status it started with, without opening any cursor or emitting any
record. -/
theorem C10_empty_rejected :
    (∀ (db : Option (List Char) → MatchT → Option ItRes)
        (vc : List Char → List Char → Int) (mt : MatchT)
        (origin quiet e eflag : Bool) (argc : Nat) (tok : List Char) (st : LoopSt),
      mt ≠ MatchT.MATCH_ALL → stripSlash tok = [] →
      procSpec db vc mt origin quiet e eflag argc (some tok) st =
        StepRes.cont { st with cs := (parseToken st.cs tok).2 }) ∧
    (∀ (db : Option (List Char) → MatchT → Option ItRes)
        (vc : List Char → List Char → Int) (mt : MatchT)
        (origin quiet e eflag : Bool) (opt : QueryOpt) (args : List (List Char)),
      mt ≠ MatchT.MATCH_ALL → args ≠ [] → (∀ tok ∈ args, stripSlash tok = []) →
      execLoop db vc mt origin quiet e eflag opt args = ⟨initRetcode e, [], []⟩) := by
  constructor
  · intro db vc mt origin quiet e eflag argc tok st hmt hstrip
    exact procSpec_reject db vc mt origin quiet e eflag argc tok st hmt hstrip
  · intro db vc mt origin quiet e eflag opt args hmt hne hall
    unfold execLoop
    rw [if_neg hne]
    exact runSpecs_all_rejected db vc mt origin quiet e eflag args.length hmt args
      (initLoopSt e opt) hall

/-- Witness for C10: a batch holding only the specifier `/` exits with
the initial status, no output and no queries. -/
theorem C10_empty_rejected_witness :
    execLoop (fun _ _ => some ⟨[], true⟩) (fun _ _ => 0) MatchT.MATCH_GLOB
      false false false false {} ["/".toList] = ⟨initRetcode false, [], []⟩ :=
  C10_empty_rejected.2 _ _ _ _ _ _ _ _ _ (by decide) (by decide) (by decide)

end PkgInfo
